import Mathlib

/-!
Shallow embedding of the quiz model, scoring engine and student-progress
tracker of the AILND repository (src/internal/custom_types/quiz.py,
src/pages/take_quiz.py, src/internal/handlers/student_progress.py,
src/internal/repository/student_progress.py), together with theorems
settling the specification claims about them.
-/

/-- Python whitespace characters recognised by str.strip (ASCII range). -/
def pyIsSpace (c : Char) : Bool :=
  c = ' ' || c = '\t' || c = '\n' || c = '\x0d' || c = '\x0b' || c = '\x0c'

/-- Python s.strip(): remove leading and trailing whitespace. -/
def pyStrip (s : String) : String :=
  String.mk (((s.toList.dropWhile pyIsSpace).reverse.dropWhile pyIsSpace).reverse)

/-- Python s.lower() (ASCII case folding). -/
def pyLower (s : String) : String :=
  String.mk (s.toList.map Char.toLower)

/-- Python bool(s.strip()): the string is non-blank after trimming. -/
def pyNonBlank (s : String) : Bool :=
  !(pyStrip s).toList.isEmpty

/-- Whether the first list is a prefix of the second. -/
def listPrefix : List Char → List Char → Bool
  | [], _ => true
  | _ :: _, [] => false
  | c :: cs, d :: ds => c == d && listPrefix cs ds

/-- Whether the pattern occurs as a contiguous sublist of the text
(Python substring membership, pat in s). -/
def listHasSub (pat : List Char) : List Char → Bool
  | [] => pat.isEmpty
  | t :: ts => listPrefix pat (t :: ts) || listHasSub pat ts

/-- Python substring test: pat in s. -/
def pyInStr (pat s : String) : Bool :=
  listHasSub pat.toList s.toList

/-- Number of positions of the text at which the pattern starts
(used to state occurrence-count claims about blank markers). -/
def listCountOccur (pat : List Char) : List Char → Nat
  | [] => 0
  | t :: ts => (if listPrefix pat (t :: ts) then 1 else 0) + listCountOccur pat ts

/-- Number of occurrences of pat inside s. -/
def countOccur (pat s : String) : Nat :=
  listCountOccur pat.toList s.toList

/-- Value of a nonempty digit string. -/
def digitsVal (ds : List Char) : Nat :=
  ds.foldl (fun acc c => acc * 10 + (c.toNat - '0'.toNat)) 0

/-- Python int(s) on a string: surrounding whitespace allowed, optional
sign, then a nonempty run of decimal digits; none models the raised
ValueError on any other shape. -/
def pyInt (s : String) : Option Int :=
  match (pyStrip s).toList with
  | [] => none
  | c :: cs =>
    let ds := if c = '+' || c = '-' then cs else c :: cs
    if ds.isEmpty then none
    else if ds.all Char.isDigit then
      some (if c = '-' then -(digitsVal ds : Int) else (digitsVal ds : Int))
    else none

/-- QuizType enum of src/internal/repository/course.py. -/
inductive QuizType where
  | multiple_choice
  | fill_in_the_blank
  deriving DecidableEq, Repr

/-- The .value string of a QuizType member. -/
def QuizType.value : QuizType → String
  | .multiple_choice => "multiple_choice"
  | .fill_in_the_blank => "fill_in_the_blank"

/-- QuizType(value) lookup; none models the raised ValueError. -/
def quizTypeOfValue (s : String) : Option QuizType :=
  if s = "multiple_choice" then some QuizType.multiple_choice
  else if s = "fill_in_the_blank" then some QuizType.fill_in_the_blank
  else none

/-- MultipleChoiceQuestion of src/internal/custom_types/quiz.py. -/
structure MultipleChoiceQuestion where
  question : String
  justification : String
  options : List String
  correct_answer : Int
  deriving DecidableEq, Repr

/-- MultipleChoiceQuestion.validate from src/internal/custom_types/quiz.py:
len(options) > 1 and 0 <= correct_answer < len(options) and both text
fields non-blank. -/
def MultipleChoiceQuestion.validate (q : MultipleChoiceQuestion) : Bool :=
  decide (1 < q.options.length) &&
  (decide (0 ≤ q.correct_answer) && decide (q.correct_answer < (q.options.length : Int))) &&
  pyNonBlank q.question &&
  pyNonBlank q.justification

/-- FillInBlankQuestion of src/internal/custom_types/quiz.py. -/
structure FillInBlankQuestion where
  question : String
  justification : String
  correct_answer : String
  deriving DecidableEq, Repr

/-- FillInBlankQuestion.validate from src/internal/custom_types/quiz.py:
the marker substring test is Python membership, "_____" in question. -/
def FillInBlankQuestion.validate (q : FillInBlankQuestion) : Bool :=
  pyInStr "_____" q.question &&
  pyNonBlank q.correct_answer &&
  pyNonBlank q.question &&
  pyNonBlank q.justification

/-- A question is one of the two concrete classes. -/
inductive Question where
  | mc : MultipleChoiceQuestion → Question
  | fib : FillInBlankQuestion → Question
  deriving DecidableEq, Repr

/-- Dynamic dispatch of q.validate() on the actual class. -/
def Question.validate : Question → Bool
  | .mc q => q.validate
  | .fib q => q.validate

/-- Quiz of src/internal/custom_types/quiz.py. -/
structure Quiz where
  type : QuizType
  questions : List Question
  deriving DecidableEq, Repr

/-- Quiz.validate from src/internal/custom_types/quiz.py: false on an
empty question list, otherwise the conjunction over all questions. -/
def Quiz.validate (q : Quiz) : Bool :=
  if q.questions.isEmpty then false
  else q.questions.all Question.validate

/-- Whether a question is of the variant a quiz type dispatches to. -/
def Question.matchesType : QuizType → Question → Bool
  | .multiple_choice, .mc _ => true
  | .fill_in_the_blank, .fib _ => true
  | _, _ => false

/-- JSON-like values that appear in the serialized dictionaries. -/
inductive JValue where
  | jstr : String → JValue
  | jint : Int → JValue
  | jlist : List JValue → JValue

/-- A serialized question is a Python dict from string keys to values. -/
def QRecord := List (String × JValue)

/-- MultipleChoiceQuestion.to_dict. -/
def MultipleChoiceQuestion.to_dict (q : MultipleChoiceQuestion) : QRecord :=
  [("question", JValue.jstr q.question),
   ("justification", JValue.jstr q.justification),
   ("options", JValue.jlist (q.options.map JValue.jstr)),
   ("correct_answer", JValue.jint q.correct_answer)]

/-- FillInBlankQuestion.to_dict. -/
def FillInBlankQuestion.to_dict (q : FillInBlankQuestion) : QRecord :=
  [("question", JValue.jstr q.question),
   ("justification", JValue.jstr q.justification),
   ("correct_answer", JValue.jstr q.correct_answer)]

/-- Extraction of data[k] as a string; none models the KeyError on a
missing key (a wrongly shaped value also fails, as constructing the typed
question would). -/
def jGetStr (r : QRecord) (k : String) : Option String :=
  match List.lookup k r with
  | some (JValue.jstr v) => some v
  | _ => none

/-- Extraction of data[k] as an integer; none models the KeyError. -/
def jGetInt (r : QRecord) (k : String) : Option Int :=
  match List.lookup k r with
  | some (JValue.jint v) => some v
  | _ => none

/-- View of a value as a string. -/
def jAsStr : JValue → Option String
  | JValue.jstr s => some s
  | _ => none

/-- Extraction of data[k] as a list of strings; none models the KeyError. -/
def jGetStrList (r : QRecord) (k : String) : Option (List String) :=
  match List.lookup k r with
  | some (JValue.jlist vs) => vs.mapM jAsStr
  | _ => none

/-- MultipleChoiceQuestion.from_dict; none models the raised KeyError. -/
def MultipleChoiceQuestion.from_dict (r : QRecord) : Option MultipleChoiceQuestion :=
  match jGetStr r "question", jGetStr r "justification",
        jGetStrList r "options", jGetInt r "correct_answer" with
  | some q, some j, some os, some ca => some ⟨q, j, os, ca⟩
  | _, _, _, _ => none

/-- FillInBlankQuestion.from_dict; none models the raised KeyError. -/
def FillInBlankQuestion.from_dict (r : QRecord) : Option FillInBlankQuestion :=
  match jGetStr r "question", jGetStr r "justification",
        jGetStr r "correct_answer" with
  | some q, some j, some ca => some ⟨q, j, ca⟩
  | _, _, _ => none

/-- Dynamic dispatch of q.to_dict() on the actual class. -/
def Question.to_dict : Question → QRecord
  | .mc q => q.to_dict
  | .fib q => q.to_dict

/-- The dictionary produced by Quiz.to_dict. -/
structure QuizRecord where
  type : String
  questions : List QRecord

/-- Quiz.to_dict. -/
def Quiz.to_dict (q : Quiz) : QuizRecord :=
  ⟨q.type.value, q.questions.map Question.to_dict⟩

/-- Parsing of one question record with the class selected by the quiz
type, as Quiz.from_dict does. -/
def parseQuestionAs (qt : QuizType) (r : QRecord) : Option Question :=
  match qt with
  | QuizType.multiple_choice =>
    (MultipleChoiceQuestion.from_dict r).map Question.mc
  | QuizType.fill_in_the_blank =>
    (FillInBlankQuestion.from_dict r).map Question.fib

/-- Quiz.from_dict: the quiz type tag picks the question class used to
parse every member of questions; none models a raised error. -/
def Quiz.from_dict (r : QuizRecord) : Option Quiz :=
  match quizTypeOfValue r.type with
  | none => none
  | some qt =>
    match r.questions.mapM (parseQuestionAs qt) with
    | some qs => some ⟨qt, qs⟩
    | none => none

/-- Whether one question is scored as correct by calculate_quiz_score of
src/pages/take_quiz.py, for a non-empty submitted answer: none models a
raised exception (int() ValueError on the multiple-choice path, attribute
or key errors on malformed records). -/
def scoreAnswer (qt : QuizType) (q : QRecord) (ans : String) : Option Bool :=
  match qt with
  | QuizType.multiple_choice =>
    match pyInt ans with
    | none => none
    | some n =>
      match List.lookup "correct_answer" q with
      | some (JValue.jint c) => some (decide (n = c))
      | some _ => some false
      | none => none
  | QuizType.fill_in_the_blank =>
    match List.lookup "correct_answer" q with
    | some (JValue.jstr c) => some (decide (pyLower (pyStrip ans) = pyLower (pyStrip c)))
    | some _ => none
    | none => none

/-- Main loop of calculate_quiz_score: walk the questions with their
indices, treating a missing or empty answer as incorrect, and otherwise
scoring via scoreAnswer; accumulates the correct count and the list of
incorrect indices. -/
def scoreAux (qt : QuizType) (answers : List (String × String)) :
    List QRecord → Nat → Option (Nat × List Nat)
  | [], _ => some (0, [])
  | q :: qs, i =>
    match List.lookup (toString i) answers with
    | none =>
      match scoreAux qt answers qs (i + 1) with
      | some (c, inc) => some (c, i :: inc)
      | none => none
    | some a =>
      if a = "" then
        match scoreAux qt answers qs (i + 1) with
        | some (c, inc) => some (c, i :: inc)
        | none => none
      else
        match scoreAnswer qt q a with
        | none => none
        | some true =>
          match scoreAux qt answers qs (i + 1) with
          | some (c, inc) => some (c + 1, inc)
          | none => none
        | some false =>
          match scoreAux qt answers qs (i + 1) with
          | some (c, inc) => some (c, i :: inc)
          | none => none

/-- calculate_quiz_score of src/pages/take_quiz.py: returns the percentage
score and the incorrect question indices; none models a raised
exception. -/
def calculate_quiz_score (qt : QuizType) (questions : List QRecord)
    (answers : List (String × String)) : Option (Rat × List Nat) :=
  if questions.isEmpty then some (0, [])
  else
    match scoreAux qt answers questions 0 with
    | none => none
    | some (c, inc) =>
      some (if 0 < questions.length then ((c : Rat) / (questions.length : Rat)) * 100 else 0, inc)

/-- SectionStatus enum of src/internal/repository/student_progress.py. -/
inductive SectionStatus where
  | not_started
  | in_progress
  | completed
  deriving DecidableEq, Repr

/-- The .value string stored in the section_status JSON map. -/
def SectionStatus.value : SectionStatus → String
  | .not_started => "not_started"
  | .in_progress => "in_progress"
  | .completed => "completed"

/-- SectionStatus(value) lookup; none models the raised ValueError. -/
def sectionStatusOfValue (s : String) : Option SectionStatus :=
  if s = "not_started" then some SectionStatus.not_started
  else if s = "in_progress" then some SectionStatus.in_progress
  else if s = "completed" then some SectionStatus.completed
  else none

/-- QuizAttempt of src/internal/repository/student_progress.py;
timestamps are abstracted as naturals. -/
structure QuizAttempt where
  quiz_id : String
  score : Rat
  completed_at : Nat
  answers : List (String × String)
  incorrect_questions : List Nat
  deriving DecidableEq, Repr

/-- Python dict assignment m[k] = v on a map kept as an association
list: replace the value in place if the key is present, append
otherwise. -/
def updateAL {α : Type} (m : List (String × α)) (k : String) (v : α) :
    List (String × α) :=
  match m with
  | [] => [(k, v)]
  | (k0, v0) :: rest =>
    if k0 = k then (k, v) :: rest else (k0, v0) :: updateAL rest k v

/-- StudentCourseTracker row of src/internal/repository/student_progress.py;
section_status keeps the stored .value strings, quiz_results the stored
attempt history per section. -/
structure StudentCourseTracker where
  course_id : Int
  current_section_index : Int
  completed : Bool
  completed_at : Option Nat
  section_status : List (String × String)
  quiz_results : List (String × List QuizAttempt)
  deriving DecidableEq, Repr

/-- Tracker created by get_or_create_progress on first access: index 0,
not completed, no completion time, empty maps. -/
def initTracker (cid : Int) : StudentCourseTracker :=
  ⟨cid, 0, false, none, [], []⟩

/-- StudentProgressRepository.update_section_status: store the status
value string for the section and save. -/
def update_section_status (t : StudentCourseTracker) (section_id : String)
    (st : SectionStatus) : StudentCourseTracker :=
  { t with section_status := updateAL t.section_status section_id st.value }

/-- StudentProgressRepository.add_quiz_attempt: append the attempt to the
section's history (created empty when absent) and save. -/
def add_quiz_attempt (t : StudentCourseTracker) (section_id : String)
    (a : QuizAttempt) : StudentCourseTracker :=
  let cur := (List.lookup section_id t.quiz_results).getD []
  { t with quiz_results := updateAL t.quiz_results section_id (cur ++ [a]) }

/-- StudentProgressRepository.get_quiz_attempts: empty history when the
section is absent. -/
def get_quiz_attempts (t : StudentCourseTracker) (section_id : String) :
    List QuizAttempt :=
  (List.lookup section_id t.quiz_results).getD []

/-- StudentProgressRepository.get_section_status: defaults to the
not_started value when the section is absent. -/
def get_section_status (t : StudentCourseTracker) (section_id : String) :
    Option SectionStatus :=
  sectionStatusOfValue ((List.lookup section_id t.section_status).getD "not_started")

/-- StudentProgressRepository.mark_course_completed: set completed and
stamp completed_at with the current time, in one save. -/
def mark_course_completed (t : StudentCourseTracker) (now : Nat) :
    StudentCourseTracker :=
  { t with completed := true, completed_at := some now }

/-- StudentProgressRepository.update_current_section. -/
def update_current_section (t : StudentCourseTracker) (i : Int) :
    StudentCourseTracker :=
  { t with current_section_index := i }

/-- The quiz_data dict passed to mark_section_complete: each required key
is present (some) or absent (none). -/
structure QuizData where
  quiz_id : Option String
  score : Option Rat
  answers : Option (List (String × String))
  incorrect_questions : Option (List Nat)
  deriving Repr

/-- Python truthiness of the optional quiz_data dict: None and the empty
dict are falsy. -/
def quizDataTruthy : Option QuizData → Bool
  | none => false
  | some d =>
    d.quiz_id.isSome || d.score.isSome || d.answers.isSome ||
    d.incorrect_questions.isSome

/-- StudentProgressHandler.mark_section_complete: the section status is
set to COMPLETED and saved first; only then, for a truthy quiz payload,
the required-field check runs and either appends the attempt or raises.
The returned pair is the persisted tracker state together with the raised
error message, if any. -/
def mark_section_complete (t : StudentCourseTracker) (section_id : String)
    (is_quiz : Bool) (quiz_data : Option QuizData) (now : Nat) :
    StudentCourseTracker × Option String :=
  let t1 := update_section_status t section_id SectionStatus.completed
  if is_quiz && quizDataTruthy quiz_data then
    match quiz_data with
    | some d =>
      match d.quiz_id, d.score, d.answers, d.incorrect_questions with
      | some qid, some sc, some ans, some inc =>
        (add_quiz_attempt t1 section_id ⟨qid, sc, now, ans, inc⟩, none)
      | _, _, _, _ => (t1, some "Missing required fields in quiz_data")
    | none => (t1, none)
  else (t1, none)

/-- StudentProgressHandler.start_section: set the section status to
IN_PROGRESS unconditionally, then update the current section index. -/
def start_section (t : StudentCourseTracker) (section_id : String)
    (section_index : Int) : StudentCourseTracker :=
  update_current_section
    (update_section_status t section_id SectionStatus.in_progress)
    section_index

/-- Tracker states reachable from creation through the repository's
mutating operations (the handler operations are compositions of these). -/
inductive Reachable : StudentCourseTracker → Prop where
  | init (cid : Int) : Reachable (initTracker cid)
  | upd_status (t : StudentCourseTracker) (s : String) (st : SectionStatus) :
      Reachable t → Reachable (update_section_status t s st)
  | add_attempt (t : StudentCourseTracker) (s : String) (a : QuizAttempt) :
      Reachable t → Reachable (add_quiz_attempt t s a)
  | upd_current (t : StudentCourseTracker) (i : Int) :
      Reachable t → Reachable (update_current_section t i)
  | complete (t : StudentCourseTracker) (now : Nat) :
      Reachable t → Reachable (mark_course_completed t now)

/-! Helper lemmas. -/

/-- The character list of a string is empty exactly when the string is
empty. -/
lemma toList_eq_nil_iff (s : String) : s.toList = [] ↔ s = "" := by
  cases s with
  | mk d =>
    constructor
    · intro h
      simp only [String.toList] at h
      exact congrArg String.mk h
    · intro h
      rw [h]
      rfl

/-- pyNonBlank holds exactly when stripping leaves a non-empty string. -/
lemma pyNonBlank_iff (s : String) : pyNonBlank s = true ↔ pyStrip s ≠ "" := by
  unfold pyNonBlank
  rw [Bool.not_eq_eq_eq_not, Bool.not_true, List.isEmpty_eq_false]
  exact not_congr (toList_eq_nil_iff _)

/-- A non-empty pattern occurs as a sublist exactly when its occurrence
count is positive. -/
lemma listHasSub_iff_count (pat : List Char) (hp : pat ≠ []) :
    ∀ text : List Char, listHasSub pat text = true ↔ 1 ≤ listCountOccur pat text := by
  intro text
  induction text with
  | nil =>
    simp [listHasSub, listCountOccur, List.isEmpty_eq_true, hp]
  | cons t ts ih =>
    by_cases h : listPrefix pat (t :: ts) = true
    · simp [listHasSub, listCountOccur, h]
    · simp only [listHasSub, listCountOccur, h, Bool.false_or, if_neg h, Nat.zero_add]
      simpa using ih

/-- countOccur positivity coincides with the Python substring test for
the blank marker. -/
lemma countOccur_pos_iff (s : String) :
    1 ≤ countOccur "_____" s ↔ pyInStr "_____" s = true := by
  unfold countOccur pyInStr
  rw [listHasSub_iff_count]
  intro h
  simp at h

/-! Claim C2. -/

/-- Claim C2, counterexample: a fill-in-blank question whose text holds
two blank markers still validates as true, while the claim (exactly one
occurrence required) predicts false. -/
theorem claim_C2_counterexample :
    FillInBlankQuestion.validate ⟨"a_____b_____c", "j", "x"⟩ = true ∧
    countOccur "_____" "a_____b_____c" = 2 := by
  constructor
  · rfl
  · rfl

/-- Claim C2 as amended: validate of a FillInBlankQuestion is true iff the
question text contains at least one (not exactly one) occurrence of the
marker and question, justification and correct_answer are non-blank
after trimming. -/
theorem claim_C2 (q : FillInBlankQuestion) :
    q.validate = true ↔
      (1 ≤ countOccur "_____" q.question ∧ pyStrip q.correct_answer ≠ "" ∧
       pyStrip q.question ≠ "" ∧ pyStrip q.justification ≠ "") := by
  unfold FillInBlankQuestion.validate
  rw [Bool.and_eq_true, Bool.and_eq_true, Bool.and_eq_true]
  rw [countOccur_pos_iff, pyNonBlank_iff, pyNonBlank_iff, pyNonBlank_iff]
  tauto

/-- Claim C2 witness: the amended equivalence evaluated on a concrete
valid question with one marker. -/
theorem claim_C2_witness :
    FillInBlankQuestion.validate ⟨"a_____b", "j", "x"⟩ = true ∧
    (1 ≤ countOccur "_____" "a_____b" ∧ pyStrip "x" ≠ "" ∧
     pyStrip "a_____b" ≠ "" ∧ pyStrip "j" ≠ "") :=
  ⟨by rfl, (claim_C2 ⟨"a_____b", "j", "x"⟩).mp (by rfl)⟩

/-! Claim C6. -/

/-- Claim C6: quiz validation is false on an empty question list and is
otherwise the conjunction of the members' validation, independent of the
quiz type; in particular a quiz whose single valid question does not
match its type still validates as true. -/
theorem claim_C6 :
    (∀ (t : QuizType) (qs : List Question),
       Quiz.validate ⟨t, qs⟩ = (!qs.isEmpty && qs.all Question.validate)) ∧
    (∀ (t t0 : QuizType) (qs : List Question),
       Quiz.validate ⟨t, qs⟩ = Quiz.validate ⟨t0, qs⟩) ∧
    Quiz.validate ⟨QuizType.multiple_choice, [Question.fib ⟨"a_____b", "j", "x"⟩]⟩ = true := by
  refine ⟨?_, ?_, ?_⟩
  · intro t qs
    unfold Quiz.validate
    cases h : qs.isEmpty <;> simp [h]
  · intro t t0 qs
    rfl
  · rfl

/-! Tracker lemmas. -/

/-- Looking up the key just written by a Python-style dict assignment
yields the written value. -/
lemma lookup_updateAL {α : Type} (m : List (String × α)) (k : String) (v : α) :
    List.lookup k (updateAL m k v) = some v := by
  induction m with
  | nil => simp [updateAL, List.lookup]
  | cons p rest ih =>
    obtain ⟨k0, v0⟩ := p
    by_cases h : k0 = k
    · simp [updateAL, h, List.lookup]
    · have hne : (k == k0) = false := by
        rw [beq_eq_false_iff_ne]
        exact fun hc => h hc.symm
      simp [updateAL, h, List.lookup, hne, ih]

/-! Claim C7. -/

/-- Claim C7: start_section unconditionally stores IN_PROGRESS for the
section (even when the stored status was COMPLETED) and sets the
tracker's current_section_index to the given index, leaving the other
fields unchanged. -/
theorem claim_C7 :
    ∀ (t : StudentCourseTracker) (section_id : String) (idx : Int),
      List.lookup section_id (start_section t section_id idx).section_status =
        some SectionStatus.in_progress.value ∧
      get_section_status (start_section t section_id idx) section_id =
        some SectionStatus.in_progress ∧
      (start_section t section_id idx).current_section_index = idx ∧
      start_section (update_section_status t section_id SectionStatus.completed)
          section_id idx = start_section t section_id idx ∧
      (start_section t section_id idx).completed = t.completed ∧
      (start_section t section_id idx).quiz_results = t.quiz_results := by
  intro t section_id idx
  have hl : ∀ u : StudentCourseTracker,
      List.lookup section_id (start_section u section_id idx).section_status =
        some SectionStatus.in_progress.value := by
    intro u
    simp [start_section, update_current_section, update_section_status, lookup_updateAL]
  refine ⟨hl t, ?_, rfl, ?_, rfl, rfl⟩
  · unfold get_section_status
    rw [hl t]
    rfl
  · have key : ∀ (m : List (String × String)),
        updateAL (updateAL m section_id SectionStatus.completed.value)
            section_id SectionStatus.in_progress.value =
          updateAL m section_id SectionStatus.in_progress.value := by
      intro m
      induction m with
      | nil => simp [updateAL]
      | cons p rest ih =>
        obtain ⟨k0, v0⟩ := p
        by_cases h : k0 = section_id
        · simp [updateAL, h]
        · simp [updateAL, h, ih]
    simp [start_section, update_current_section, update_section_status, key]

/-! Claim C10. -/

/-- Claim C10: with is_quiz true and a falsy quiz_data (None or the empty
dict), mark_section_complete raises no error, records no quiz attempt,
and still persists the COMPLETED status for the section; the
required-field rejection is only reachable for a truthy payload. -/
theorem claim_C10 (t : StudentCourseTracker) (section_id : String)
    (now : Nat) (quiz_data : Option QuizData)
    (h : quizDataTruthy quiz_data = false) :
    mark_section_complete t section_id true quiz_data now =
      (update_section_status t section_id SectionStatus.completed, none) ∧
    List.lookup section_id
        (mark_section_complete t section_id true quiz_data now).1.section_status =
      some SectionStatus.completed.value ∧
    (mark_section_complete t section_id true quiz_data now).1.quiz_results =
      t.quiz_results ∧
    quizDataTruthy none = false ∧
    quizDataTruthy (some ⟨none, none, none, none⟩) = false := by
  have heq : mark_section_complete t section_id true quiz_data now =
      (update_section_status t section_id SectionStatus.completed, none) := by
    unfold mark_section_complete
    rw [h]
    rfl
  refine ⟨heq, ?_, ?_, rfl, rfl⟩
  · rw [heq]
    exact lookup_updateAL t.section_status section_id _
  · rw [heq]
    rfl

/-- Claim C10 witness: the theorem applied to a fresh tracker and an
absent quiz_data payload. -/
theorem claim_C10_witness :
    quizDataTruthy none = false ∧
    mark_section_complete (initTracker 1) "s1" true none 0 =
      (update_section_status (initTracker 1) "s1" SectionStatus.completed, none) :=
  ⟨rfl, (claim_C10 (initTracker 1) "s1" 0 none rfl).1⟩

/-! Claim C1. -/

/-- Claim C1, counterexample: a quiz payload missing incorrect_questions
raises the missing-field error, yet the tracker is not left unmodified:
the section status change to completed was already persisted before the
check (partial save). No quiz attempt is recorded. -/
theorem claim_C1_counterexample :
    (mark_section_complete (initTracker 1) "s1" true
        (some ⟨some "q1", some 80, some [("0", "1")], none⟩) 5).2 =
      some "Missing required fields in quiz_data" ∧
    (mark_section_complete (initTracker 1) "s1" true
        (some ⟨some "q1", some 80, some [("0", "1")], none⟩) 5).1.section_status =
      [("s1", "completed")] ∧
    (initTracker 1).section_status = [] := by
  refine ⟨rfl, rfl, rfl⟩

/-- Claim C1 as amended: with is_quiz true and a truthy quiz_data missing
one of the required fields, mark_section_complete raises the
missing-field error and persists no quiz attempt, but the tracker is not
left unmodified: the section status has already been set to COMPLETED and
saved before the check runs. -/
theorem claim_C1 (t : StudentCourseTracker) (section_id : String)
    (d : QuizData) (now : Nat)
    (htruthy : quizDataTruthy (some d) = true)
    (hmissing : d.quiz_id = none ∨ d.score = none ∨ d.answers = none ∨
      d.incorrect_questions = none) :
    mark_section_complete t section_id true (some d) now =
      (update_section_status t section_id SectionStatus.completed,
       some "Missing required fields in quiz_data") ∧
    (mark_section_complete t section_id true (some d) now).1.quiz_results =
      t.quiz_results ∧
    List.lookup section_id
        (mark_section_complete t section_id true (some d) now).1.section_status =
      some SectionStatus.completed.value := by
  obtain ⟨qid, sc, ans, inc⟩ := d
  have heq : mark_section_complete t section_id true (some ⟨qid, sc, ans, inc⟩) now =
      (update_section_status t section_id SectionStatus.completed,
       some "Missing required fields in quiz_data") := by
    unfold mark_section_complete
    rw [htruthy]
    cases qid <;> cases sc <;> cases ans <;> cases inc <;>
      simp_all
  refine ⟨heq, ?_, ?_⟩
  · rw [heq]
    rfl
  · rw [heq]
    exact lookup_updateAL t.section_status section_id _

/-- Claim C1 witness: the amended theorem applied to a fresh tracker and
a payload carrying everything except incorrect_questions. -/
theorem claim_C1_witness :
    quizDataTruthy (some ⟨some "q2", some 50, some [], none⟩) = true ∧
    mark_section_complete (initTracker 2) "s2" true
        (some ⟨some "q2", some 50, some [], none⟩) 7 =
      (update_section_status (initTracker 2) "s2" SectionStatus.completed,
       some "Missing required fields in quiz_data") :=
  ⟨rfl, (claim_C1 (initTracker 2) "s2" ⟨some "q2", some 50, some [], none⟩ 7 rfl
      (Or.inr (Or.inr (Or.inr rfl)))).1⟩

/-! Claim C9. -/

/-- Claim C9: a tracker is created not completed and with no completion
time; mark_course_completed sets both fields in the same step; no other
repository operation touches either field; hence every reachable tracker
satisfies the invariant that completed implies completed_at is set. -/
theorem claim_C9 :
    (∀ cid : Int,
       (initTracker cid).completed = false ∧ (initTracker cid).completed_at = none) ∧
    (∀ (t : StudentCourseTracker) (now : Nat),
       (mark_course_completed t now).completed = true ∧
       (mark_course_completed t now).completed_at = some now) ∧
    (∀ (t : StudentCourseTracker) (s : String) (st : SectionStatus),
       (update_section_status t s st).completed = t.completed ∧
       (update_section_status t s st).completed_at = t.completed_at) ∧
    (∀ (t : StudentCourseTracker) (s : String) (a : QuizAttempt),
       (add_quiz_attempt t s a).completed = t.completed ∧
       (add_quiz_attempt t s a).completed_at = t.completed_at) ∧
    (∀ (t : StudentCourseTracker) (i : Int),
       (update_current_section t i).completed = t.completed ∧
       (update_current_section t i).completed_at = t.completed_at) ∧
    (∀ t : StudentCourseTracker, Reachable t →
       t.completed = true → (t.completed_at).isSome = true) := by
  refine ⟨fun _ => ⟨rfl, rfl⟩, fun _ _ => ⟨rfl, rfl⟩, fun _ _ _ => ⟨rfl, rfl⟩,
    fun _ _ _ => ⟨rfl, rfl⟩, fun _ _ => ⟨rfl, rfl⟩, ?_⟩
  intro t ht
  induction ht with
  | init cid => intro h; cases h
  | upd_status t s st _ ih => exact ih
  | add_attempt t s a _ ih => exact ih
  | upd_current t i _ ih => exact ih
  | complete t now _ _ => intro _; rfl

/-- Claim C9 witness: the invariant evaluated on the reachable tracker
obtained by completing a freshly created course. -/
theorem claim_C9_witness :
    Reachable (mark_course_completed (initTracker 1) 5) ∧
    ((mark_course_completed (initTracker 1) 5).completed_at).isSome = true :=
  ⟨Reachable.complete _ 5 (Reachable.init 1),
   claim_C9.2.2.2.2.2 (mark_course_completed (initTracker 1) 5)
     (Reachable.complete _ 5 (Reachable.init 1)) rfl⟩

/-! Scoring lemmas. -/

/-- Characterization of the scoring loop: when it returns a result, the
correct count and incorrect indices partition the questions, the
incorrect indices lie in the enumerated range, and an index is incorrect
exactly when its question lacks a non-empty submission scored true. -/
lemma scoreAux_spec (qt : QuizType) (answers : List (String × String)) :
    ∀ (qs : List QRecord) (i0 c : Nat) (inc : List Nat),
      scoreAux qt answers qs i0 = some (c, inc) →
      c + inc.length = qs.length ∧
      (∀ k ∈ inc, i0 ≤ k ∧ k < i0 + qs.length) ∧
      (∀ j (hj : j < qs.length),
        ((i0 + j) ∈ inc ↔
          ¬ ∃ a, List.lookup (toString (i0 + j)) answers = some a ∧ a ≠ "" ∧
            scoreAnswer qt (qs.get ⟨j, hj⟩) a = some true)) := by
  intro qs
  induction qs with
  | nil =>
    intro i0 c inc h
    simp only [scoreAux, Option.some.injEq, Prod.mk.injEq] at h
    obtain ⟨rfl, rfl⟩ := h
    refine ⟨rfl, ?_, ?_⟩
    · intro k hk
      cases hk
    · intro j hj
      exact absurd hj (by simp)
  | cons q qs ih =>
    intro i0 c inc h
    cases hlook : List.lookup (toString i0) answers with
    | none =>
      simp only [scoreAux, hlook] at h
      cases hrec : scoreAux qt answers qs (i0 + 1) with
      | none =>
        simp only [hrec] at h
        exact Option.noConfusion h
      | some p =>
        obtain ⟨c0, inc0⟩ := p
        simp only [hrec, Option.some.injEq, Prod.mk.injEq] at h
        obtain ⟨rfl, rfl⟩ := h
        obtain ⟨ihc, ihb, ihm⟩ := ih (i0 + 1) _ _ hrec
        refine ⟨?_, ?_, ?_⟩
        · simp only [List.length_cons]
          omega
        · intro k hk
          rcases List.mem_cons.mp hk with rfl | hk0
          · simp only [List.length_cons]
            omega
          · have := ihb k hk0
            simp only [List.length_cons]
            omega
        · intro j hj
          cases j with
          | zero =>
            rw [Nat.add_zero]
            apply iff_of_true (List.mem_cons_self _ _)
            rintro ⟨a, hla, -, -⟩
            rw [hlook] at hla
            exact Option.noConfusion hla
          | succ j0 =>
            have hj0 : j0 < qs.length := by
              simp only [List.length_cons] at hj
              omega
            have harith : i0 + (j0 + 1) = (i0 + 1) + j0 := by omega
            have hget : (q :: qs).get ⟨j0 + 1, hj⟩ = qs.get ⟨j0, hj0⟩ := rfl
            rw [List.mem_cons, hget, harith]
            have hne : ¬ ((i0 + 1) + j0 = i0) := by omega
            simp only [hne, false_or]
            exact ihm j0 hj0
    | some a =>
      simp only [scoreAux, hlook] at h
      by_cases ha : a = ""
      · rw [if_pos ha] at h
        cases hrec : scoreAux qt answers qs (i0 + 1) with
        | none =>
          simp only [hrec] at h
          exact Option.noConfusion h
        | some p =>
          obtain ⟨c0, inc0⟩ := p
          simp only [hrec, Option.some.injEq, Prod.mk.injEq] at h
          obtain ⟨rfl, rfl⟩ := h
          obtain ⟨ihc, ihb, ihm⟩ := ih (i0 + 1) _ _ hrec
          refine ⟨?_, ?_, ?_⟩
          · simp only [List.length_cons]
            omega
          · intro k hk
            rcases List.mem_cons.mp hk with rfl | hk0
            · simp only [List.length_cons]
              omega
            · have := ihb k hk0
              simp only [List.length_cons]
              omega
          · intro j hj
            cases j with
            | zero =>
              rw [Nat.add_zero]
              apply iff_of_true (List.mem_cons_self _ _)
              rintro ⟨a0, hla, hne0, -⟩
              rw [hlook] at hla
              injection hla with hla0
              rw [← hla0] at hne0
              exact hne0 ha
            | succ j0 =>
              have hj0 : j0 < qs.length := by
                simp only [List.length_cons] at hj
                omega
              have harith : i0 + (j0 + 1) = (i0 + 1) + j0 := by omega
              have hget : (q :: qs).get ⟨j0 + 1, hj⟩ = qs.get ⟨j0, hj0⟩ := rfl
              rw [List.mem_cons, hget, harith]
              have hne : ¬ ((i0 + 1) + j0 = i0) := by omega
              simp only [hne, false_or]
              exact ihm j0 hj0
      · rw [if_neg ha] at h
        cases hans : scoreAnswer qt q a with
        | none =>
          simp only [hans] at h
          exact Option.noConfusion h
        | some b =>
          cases b with
          | true =>
            simp only [hans] at h
            cases hrec : scoreAux qt answers qs (i0 + 1) with
            | none =>
              simp only [hrec] at h
              exact Option.noConfusion h
            | some p =>
              obtain ⟨c0, inc0⟩ := p
              simp only [hrec, Option.some.injEq, Prod.mk.injEq] at h
              obtain ⟨rfl, rfl⟩ := h
              obtain ⟨ihc, ihb, ihm⟩ := ih (i0 + 1) _ _ hrec
              refine ⟨?_, ?_, ?_⟩
              · simp only [List.length_cons]
                omega
              · intro k hk
                have := ihb k hk
                simp only [List.length_cons]
                omega
              · intro j hj
                cases j with
                | zero =>
                  rw [Nat.add_zero]
                  apply iff_of_false
                  · intro hmem
                    have := ihb i0 hmem
                    omega
                  · intro hno
                    exact hno ⟨a, hlook, ha, hans⟩
                | succ j0 =>
                  have hj0 : j0 < qs.length := by
                    simp only [List.length_cons] at hj
                    omega
                  have harith : i0 + (j0 + 1) = (i0 + 1) + j0 := by omega
                  have hget : (q :: qs).get ⟨j0 + 1, hj⟩ = qs.get ⟨j0, hj0⟩ := rfl
                  rw [hget, harith]
                  exact ihm j0 hj0
          | false =>
            simp only [hans] at h
            cases hrec : scoreAux qt answers qs (i0 + 1) with
            | none =>
              simp only [hrec] at h
              exact Option.noConfusion h
            | some p =>
              obtain ⟨c0, inc0⟩ := p
              simp only [hrec, Option.some.injEq, Prod.mk.injEq] at h
              obtain ⟨rfl, rfl⟩ := h
              obtain ⟨ihc, ihb, ihm⟩ := ih (i0 + 1) _ _ hrec
              refine ⟨?_, ?_, ?_⟩
              · simp only [List.length_cons]
                omega
              · intro k hk
                rcases List.mem_cons.mp hk with rfl | hk0
                · simp only [List.length_cons]
                  omega
                · have := ihb k hk0
                  simp only [List.length_cons]
                  omega
              · intro j hj
                cases j with
                | zero =>
                  rw [Nat.add_zero]
                  apply iff_of_true (List.mem_cons_self _ _)
                  rintro ⟨a0, hla, -, hsc⟩
                  rw [hlook] at hla
                  injection hla with hla0
                  have hgq : (q :: qs).get ⟨0, hj⟩ = q := rfl
                  rw [hgq, ← hla0, hans] at hsc
                  exact Bool.noConfusion (Option.some.inj hsc)
                | succ j0 =>
                  have hj0 : j0 < qs.length := by
                    simp only [List.length_cons] at hj
                    omega
                  have harith : i0 + (j0 + 1) = (i0 + 1) + j0 := by omega
                  have hget : (q :: qs).get ⟨j0 + 1, hj⟩ = qs.get ⟨j0, hj0⟩ := rfl
                  rw [List.mem_cons, hget, harith]
                  have hne : ¬ ((i0 + 1) + j0 = i0) := by omega
                  simp only [hne, false_or]
                  exact ihm j0 hj0

/-- A question whose non-empty submission makes scoreAnswer raise brings
the whole scoring loop down: the loop returns none. -/
lemma scoreAux_none_of_bad (qt : QuizType) (answers : List (String × String)) :
    ∀ (qs : List QRecord) (i0 j : Nat) (hj : j < qs.length) (a : String),
      List.lookup (toString (i0 + j)) answers = some a → a ≠ "" →
      scoreAnswer qt (qs.get ⟨j, hj⟩) a = none →
      scoreAux qt answers qs i0 = none := by
  intro qs
  induction qs with
  | nil =>
    intro i0 j hj
    exact absurd hj (by simp)
  | cons q qs ih =>
    intro i0 j hj a hla hne hbad
    cases j with
    | zero =>
      rw [Nat.add_zero] at hla
      have hgq : (q :: qs).get ⟨0, hj⟩ = q := rfl
      rw [hgq] at hbad
      simp [scoreAux, hla, if_neg hne, hbad]
    | succ j0 =>
      have hj0 : j0 < qs.length := by
        simp only [List.length_cons] at hj
        omega
      have harith : i0 + (j0 + 1) = (i0 + 1) + j0 := by omega
      have hget : (q :: qs).get ⟨j0 + 1, hj⟩ = qs.get ⟨j0, hj0⟩ := rfl
      rw [harith] at hla
      rw [hget] at hbad
      have hrec : scoreAux qt answers qs (i0 + 1) = none :=
        ih (i0 + 1) j0 hj0 a hla hne hbad
      cases hlook : List.lookup (toString i0) answers with
      | none => simp [scoreAux, hlook, hrec]
      | some a0 =>
        by_cases ha0 : a0 = ""
        · simp [scoreAux, hlook, ha0, hrec]
        · cases hans : scoreAnswer qt q a0 with
          | none => simp [scoreAux, hlook, if_neg ha0, hans]
          | some b =>
            cases b with
            | true => simp [scoreAux, hlook, if_neg ha0, hans, hrec]
            | false => simp [scoreAux, hlook, if_neg ha0, hans, hrec]

/-- With an empty answers map every question is scored incorrect and the
loop lists all enumerated indices. -/
lemma scoreAux_nil_answers (qt : QuizType) :
    ∀ (qs : List QRecord) (i0 : Nat),
      scoreAux qt [] qs i0 = some (0, List.range' i0 qs.length) := by
  intro qs
  induction qs with
  | nil => intro i0; rfl
  | cons q qs ih =>
    intro i0
    have hlook : List.lookup (toString i0) ([] : List (String × String)) = none := rfl
    simp [scoreAux, hlook, ih (i0 + 1), List.range'_succ]

/-! Claim C3. -/

/-- Claim C3, counterexample: a non-empty submission that does not parse
as an integer makes the scoring call raise (modelled by none) instead of
marking the question incorrect; scoring is not total. -/
theorem claim_C3_counterexample :
    calculate_quiz_score QuizType.multiple_choice
        [[("correct_answer", JValue.jint 0)]] [("0", "abc")] = none ∧
    pyInt "abc" = none ∧ ("abc" : String) ≠ "" := by
  refine ⟨rfl, rfl, by decide⟩

/-- Claim C3 as amended: on the multiple-choice path a non-empty
submitted answer that fails integer parsing causes int() to raise, so the
scoring function crashes (returns none) rather than treating the
question as incorrect; only missing or empty submissions are scored
incorrect without parsing. -/
theorem claim_C3 (questions : List QRecord) (answers : List (String × String))
    (j : Nat) (a : String) (hj : j < questions.length)
    (hla : List.lookup (toString j) answers = some a)
    (hne : a ≠ "") (hbad : pyInt a = none) :
    calculate_quiz_score QuizType.multiple_choice questions answers = none := by
  have hq : ¬ (questions.isEmpty = true) := by
    cases questions with
    | nil => exact absurd hj (by simp)
    | cons q qs => simp
  have hbadsc : scoreAnswer QuizType.multiple_choice (questions.get ⟨j, hj⟩) a = none := by
    simp [scoreAnswer, hbad]
  have hrec := scoreAux_none_of_bad QuizType.multiple_choice answers questions 0 j hj a
    (by rw [Nat.zero_add]; exact hla) hne hbadsc
  unfold calculate_quiz_score
  rw [if_neg hq, hrec]

/-- Claim C3 witness: the amended theorem at a two-question quiz whose
second submission is the non-integer string x1. -/
theorem claim_C3_witness :
    (1 < ([[("correct_answer", JValue.jint 3)], [("correct_answer", JValue.jint 1)]] : List QRecord).length ∧
     List.lookup (toString 1) [("0", "2"), ("1", "x1")] = some "x1" ∧
     ("x1" : String) ≠ "" ∧ pyInt "x1" = none) ∧
    calculate_quiz_score QuizType.multiple_choice
        [[("correct_answer", JValue.jint 3)], [("correct_answer", JValue.jint 1)]]
        [("0", "2"), ("1", "x1")] = none := by
  refine ⟨⟨by simp, rfl, by decide, rfl⟩, claim_C3 _ _ 1 "x1" (by simp) rfl (by decide) rfl⟩

/-! Claim C4. -/

/-- Claim C4: a question with no entry in the answers map is scored
incorrect (it lands in incorrect_indices, never in the correct count, and
raises nothing — an all-missing answers map yields every index); the
percentage is (correct / total) * 100 with correct = total minus the
incorrect count; an empty question list gives percentage 0 and an empty
incorrect list. -/
theorem claim_C4 (qt : QuizType) (questions : List QRecord)
    (answers : List (String × String)) (p : Rat) (inc : List Nat)
    (h : calculate_quiz_score qt questions answers = some (p, inc)) :
    (∀ i, i < questions.length → List.lookup (toString i) answers = none → i ∈ inc) ∧
    inc.length ≤ questions.length ∧
    p = (((questions.length - inc.length : Nat) : Rat) / (questions.length : Rat)) * 100 ∧
    calculate_quiz_score qt [] answers = some (0, []) ∧
    calculate_quiz_score qt questions [] = some (0, List.range questions.length) := by
  by_cases hq : questions.isEmpty = true
  · have hqs : questions = [] := by
      cases questions with
      | nil => rfl
      | cons q qs => simp at hq
    subst hqs
    simp only [calculate_quiz_score, List.isEmpty_nil, if_true, Option.some.injEq,
      Prod.mk.injEq] at h
    obtain ⟨hp, hinc⟩ := h
    refine ⟨?_, ?_, ?_, rfl, rfl⟩
    · intro i hi
      exact absurd hi (by simp)
    · rw [← hinc]
      simp
    · rw [← hp, ← hinc]
      norm_num
  · have hlen : 0 < questions.length := by
      cases questions with
      | nil => simp at hq
      | cons q qs => simp
    unfold calculate_quiz_score at h
    rw [if_neg hq] at h
    cases hrec : scoreAux qt answers questions 0 with
    | none =>
      rw [hrec] at h
      exact Option.noConfusion h
    | some pr =>
      obtain ⟨c, inc0⟩ := pr
      rw [hrec] at h
      simp only [if_pos hlen, Option.some.injEq, Prod.mk.injEq] at h
      obtain ⟨hp, hinc⟩ := h
      subst hinc
      obtain ⟨ihc, ihb, ihm⟩ := scoreAux_spec qt answers questions 0 _ _ hrec
      refine ⟨?_, ?_, ?_, rfl, ?_⟩
      · intro i hi hnone
        have hmem := (ihm i hi).mpr ?_
        · simpa using hmem
        · rintro ⟨a, hla, -, -⟩
          rw [Nat.zero_add, hnone] at hla
          exact Option.noConfusion hla
      · omega
      · have hc : c = questions.length - inc0.length := by omega
        rw [← hp, hc]
      · have hrecn := scoreAux_nil_answers qt questions 0
        unfold calculate_quiz_score
        rw [if_neg hq, hrecn]
        simp [hlen, List.range_eq_range']

/-- Claim C4 witness: the theorem at a one-question quiz with an empty
answers map, where the single question is scored incorrect. -/
theorem claim_C4_witness :
    calculate_quiz_score QuizType.multiple_choice
        [[("correct_answer", JValue.jint 0)]] [] = some (0, [0]) ∧
    ((∀ i, i < ([[("correct_answer", JValue.jint 0)]] : List QRecord).length →
        List.lookup (toString i) ([] : List (String × String)) = none → i ∈ [0]) ∧
     [0].length ≤ ([[("correct_answer", JValue.jint 0)]] : List QRecord).length ∧
     (0 : Rat) = ((((([[("correct_answer", JValue.jint 0)]] : List QRecord)).length - [0].length : Nat)) : Rat) /
        ((([[("correct_answer", JValue.jint 0)]] : List QRecord)).length : Rat) * 100 ∧
     calculate_quiz_score QuizType.multiple_choice [] [] = some (0, []) ∧
     calculate_quiz_score QuizType.multiple_choice [[("correct_answer", JValue.jint 0)]] [] =
       some (0, List.range ([[("correct_answer", JValue.jint 0)]] : List QRecord).length)) := by
  have hcalc : calculate_quiz_score QuizType.multiple_choice
      [[("correct_answer", JValue.jint 0)]] [] = some (0, [0]) := by
    have hs : scoreAux QuizType.multiple_choice []
        [[("correct_answer", JValue.jint 0)]] 0 = some (0, [0]) := rfl
    simp [calculate_quiz_score, hs]
  exact ⟨hcalc, claim_C4 _ _ _ _ _ hcalc⟩

/-! Claim C8. -/

/-- Claim C8, counterexample: an empty-string submission is scored
incorrect before any comparison, even though it equals the (blank)
correct answer under the trimmed case-insensitive comparison, so the
claimed equivalence fails. -/
theorem claim_C8_counterexample :
    calculate_quiz_score QuizType.fill_in_the_blank
        [[("correct_answer", JValue.jstr " ")]] [("0", "")] = some (0, [0]) ∧
    pyLower (pyStrip "") = pyLower (pyStrip " ") := by
  constructor
  · have hs : scoreAux QuizType.fill_in_the_blank [("0", "")]
        [[("correct_answer", JValue.jstr " ")]] 0 = some (0, [0]) := rfl
    simp [calculate_quiz_score, hs]
  · rfl

/-- Claim C8 as amended: a fill-in-blank question is scored correct iff
the student submitted a non-empty answer equal to the correct answer
under whitespace-trimmed case-insensitive comparison; an empty submission
is always scored incorrect, without any comparison. -/
theorem claim_C8 (questions : List QRecord) (answers : List (String × String))
    (p : Rat) (inc : List Nat) (j : Nat) (c : String) (hj : j < questions.length)
    (h : calculate_quiz_score QuizType.fill_in_the_blank questions answers = some (p, inc))
    (hc : List.lookup "correct_answer" (questions.get ⟨j, hj⟩) = some (JValue.jstr c)) :
    (¬ j ∈ inc) ↔ ∃ a, List.lookup (toString j) answers = some a ∧ a ≠ "" ∧
      pyLower (pyStrip a) = pyLower (pyStrip c) := by
  have hq : ¬ (questions.isEmpty = true) := by
    cases questions with
    | nil => exact absurd hj (by simp)
    | cons q qs => simp
  unfold calculate_quiz_score at h
  rw [if_neg hq] at h
  cases hrec : scoreAux QuizType.fill_in_the_blank answers questions 0 with
  | none =>
    rw [hrec] at h
    exact Option.noConfusion h
  | some pr =>
    obtain ⟨c0, inc0⟩ := pr
    rw [hrec] at h
    simp only [Option.some.injEq, Prod.mk.injEq] at h
    obtain ⟨-, hinc⟩ := h
    subst hinc
    obtain ⟨-, -, ihm⟩ := scoreAux_spec QuizType.fill_in_the_blank answers questions 0 _ _ hrec
    have hsa : ∀ a : String,
        scoreAnswer QuizType.fill_in_the_blank (questions.get ⟨j, hj⟩) a =
          some (decide (pyLower (pyStrip a) = pyLower (pyStrip c))) := by
      intro a
      simp only [scoreAnswer]
      rw [hc]
    have hm := ihm j hj
    rw [Nat.zero_add] at hm
    rw [hm, not_not]
    apply exists_congr
    intro a
    rw [hsa a]
    simp

/-! Serialization round-trip lemmas. -/

/-- Strings wrapped as values and read back come out unchanged. -/
lemma mapM_jAsStr_map (l : List String) :
    List.mapM jAsStr (l.map JValue.jstr) = some l := by
  induction l with
  | nil => rfl
  | cons a t ih =>
    rw [List.map_cons, List.mapM_cons, ih]
    rfl

/-- Serializing then deserializing a multiple-choice question restores
every field exactly. -/
lemma mcq_round (q : MultipleChoiceQuestion) :
    MultipleChoiceQuestion.from_dict q.to_dict = some q := by
  unfold MultipleChoiceQuestion.from_dict MultipleChoiceQuestion.to_dict
  have hos : jGetStrList
      [("question", JValue.jstr q.question),
       ("justification", JValue.jstr q.justification),
       ("options", JValue.jlist (q.options.map JValue.jstr)),
       ("correct_answer", JValue.jint q.correct_answer)] "options" = some q.options := by
    unfold jGetStrList
    have : List.lookup "options"
        [("question", JValue.jstr q.question),
         ("justification", JValue.jstr q.justification),
         ("options", JValue.jlist (q.options.map JValue.jstr)),
         ("correct_answer", JValue.jint q.correct_answer)] =
        some (JValue.jlist (q.options.map JValue.jstr)) := by
      simp [List.lookup]
    rw [this]
    exact mapM_jAsStr_map q.options
  rw [hos]
  simp [jGetStr, jGetInt, List.lookup]

/-- Serializing then deserializing a fill-in-blank question restores
every field exactly. -/
lemma fib_round (q : FillInBlankQuestion) :
    FillInBlankQuestion.from_dict q.to_dict = some q := by
  unfold FillInBlankQuestion.from_dict FillInBlankQuestion.to_dict
  simp [jGetStr, List.lookup]

/-- The stored type tag parses back to the same enum member. -/
lemma quizTypeOfValue_value (t : QuizType) : quizTypeOfValue t.value = some t := by
  cases t <;> rfl

/-- A question of the variant matching the quiz type parses back from its
dictionary under that type's question class. -/
lemma parseQuestionAs_to_dict (qt : QuizType) (q : Question)
    (h : Question.matchesType qt q = true) :
    parseQuestionAs qt q.to_dict = some q := by
  cases qt <;> cases q <;> simp [Question.matchesType] at h <;>
    simp [parseQuestionAs, Question.to_dict, mcq_round, fib_round]

/-- A list of questions homogeneous in the quiz type parses back from its
serialized form element by element. -/
lemma mapM_parseQuestionAs (qt : QuizType) :
    ∀ qs : List Question, (∀ q ∈ qs, Question.matchesType qt q = true) →
      List.mapM (parseQuestionAs qt) (qs.map Question.to_dict) = some qs := by
  intro qs
  induction qs with
  | nil => intro h; rfl
  | cons q t ih =>
    intro h
    rw [List.map_cons, List.mapM_cons,
      parseQuestionAs_to_dict qt q (h q (List.mem_cons_self q t)),
      ih (fun x hx => h x (List.mem_cons_of_mem q hx))]
    rfl

/-! Claim C5. -/

/-- Claim C5: deserialize after serialize is the identity on every
multiple-choice question, on every fill-in-blank question, and on every
valid quiz whose questions match its declared type (the type tag picks
the parsing class, so homogeneity is the data-model precondition). -/
theorem claim_C5 :
    (∀ q : MultipleChoiceQuestion, MultipleChoiceQuestion.from_dict q.to_dict = some q) ∧
    (∀ q : FillInBlankQuestion, FillInBlankQuestion.from_dict q.to_dict = some q) ∧
    (∀ qz : Quiz, (∀ q ∈ qz.questions, Question.matchesType qz.type q = true) →
       qz.validate = true → Quiz.from_dict qz.to_dict = some qz) := by
  refine ⟨mcq_round, fib_round, ?_⟩
  intro qz hhomog _
  obtain ⟨t, qs⟩ := qz
  simp only [Quiz.from_dict, Quiz.to_dict, quizTypeOfValue_value]
  rw [mapM_parseQuestionAs t qs hhomog]

/-- Claim C5 witness: the round trip evaluated on a concrete valid
multiple-choice quiz. -/
theorem claim_C5_witness :
    ((∀ q ∈ (⟨QuizType.multiple_choice,
        [Question.mc ⟨"Q1", "J1", ["a", "b"], 1⟩]⟩ : Quiz).questions,
        Question.matchesType QuizType.multiple_choice q = true) ∧
     (⟨QuizType.multiple_choice,
        [Question.mc ⟨"Q1", "J1", ["a", "b"], 1⟩]⟩ : Quiz).validate = true) ∧
    Quiz.from_dict (Quiz.to_dict ⟨QuizType.multiple_choice,
        [Question.mc ⟨"Q1", "J1", ["a", "b"], 1⟩]⟩) =
      some ⟨QuizType.multiple_choice, [Question.mc ⟨"Q1", "J1", ["a", "b"], 1⟩]⟩ := by
  refine ⟨⟨by decide, by decide⟩, claim_C5.2.2 _ (by decide) (by decide)⟩

/-- Claim C8 witness: the amended equivalence at the spec's Paris
scenario, where the trimmed lower-cased submission matches and the
question is scored correct. -/
theorem claim_C8_witness :
    calculate_quiz_score QuizType.fill_in_the_blank
        [[("correct_answer", JValue.jstr "Paris")]] [("0", " paris ")] = some (100, []) ∧
    ((¬ (0 : Nat) ∈ ([] : List Nat)) ↔ ∃ a, List.lookup (toString 0) [("0", " paris ")] = some a ∧
      a ≠ "" ∧ pyLower (pyStrip a) = pyLower (pyStrip "Paris")) := by
  have hcalc : calculate_quiz_score QuizType.fill_in_the_blank
      [[("correct_answer", JValue.jstr "Paris")]] [("0", " paris ")] = some (100, []) := by
    have hs : scoreAux QuizType.fill_in_the_blank [("0", " paris ")]
        [[("correct_answer", JValue.jstr "Paris")]] 0 = some (1, []) := rfl
    simp [calculate_quiz_score, hs]
  exact ⟨hcalc, claim_C8 _ _ _ _ 0 "Paris" (by simp) hcalc rfl⟩
